import Mathlib

/-!
Shallow embedding of the kappanhang CI-V engine (src/unnamed/part_000),
the control stream (src/unnamed/part_001) and the main read loop
(src/main.go), together with proofs about the frozen claims.

Conventions of the embedding:
* Go bytes are `Nat` values (wire bytes are < 256); Go `int` fields that
  can go negative in the source (`operatingModeIdx` can be set to -1 by
  `decodeVFOMode`) are `Int`.
* Go `time.Time` / `time.Duration` are `Nat` milliseconds; the engine
  functions take the current time `now` explicitly.
* The process-global `civControl` state (the inner `state` struct plus the
  `st` serial-stream pointer) is the record `civState`; `stConnected`
  models `s.st != nil`.  Byte frames handed to `s.st.send` are collected
  in a `List (List Nat)` output; `s.st.send` errors are not modelled (the
  claims only concern the nil-stream and successful-send cases).
* The `statusLog.report*` callbacks are collected as `Report` events.
* A Go runtime panic on the decode path (out-of-range slice or table
  index, nil `time.Timer` dereference) is modelled by the decoder
  returning `none`.
-/

namespace KH

/-- Operating mode table entry (source struct `civOperatingMode`). -/
structure civOperatingMode where
  name : String
  code : Nat
deriving DecidableEq

/-- Fixed table of 10 operating modes (source var `civOperatingModes`). -/
def civOperatingModes : List civOperatingMode :=
  [⟨"LSB", 0x00⟩, ⟨"USB", 0x01⟩, ⟨"AM", 0x02⟩, ⟨"CW", 0x03⟩, ⟨"RTTY", 0x04⟩,
   ⟨"FM", 0x05⟩, ⟨"WFM", 0x06⟩, ⟨"CW-R", 0x07⟩, ⟨"RTTY-R", 0x08⟩, ⟨"DV", 0x17⟩]

/-- Filter table entry (source struct `civFilter`). -/
structure civFilter where
  name : String
  code : Nat
deriving DecidableEq

/-- Fixed table of 3 filters (source var `civFilters`). -/
def civFilters : List civFilter := [⟨"FIL1", 0x01⟩, ⟨"FIL2", 0x02⟩, ⟨"FIL3", 0x03⟩]

/-- Band table row (source struct `civBand`); `freq` is the per-band cached
frequency mutated by the band-lookup code in `decodeVFOFreq`. -/
structure civBand where
  freqFrom : Nat
  freqTo : Nat
  freq : Nat
deriving DecidableEq

/-- Fixed 15-row band table (source var `civBands`), initial contents. -/
def civBands : List civBand :=
  [⟨1800000, 1999999, 0⟩, ⟨3400000, 4099999, 0⟩, ⟨6900000, 7499999, 0⟩,
   ⟨9900000, 10499999, 0⟩, ⟨13900000, 14499999, 0⟩, ⟨17900000, 18499999, 0⟩,
   ⟨20900000, 21499999, 0⟩, ⟨24400000, 25099999, 0⟩, ⟨28000000, 29999999, 0⟩,
   ⟨50000000, 54000000, 0⟩, ⟨74800000, 107999999, 0⟩, ⟨108000000, 136999999, 0⟩,
   ⟨144000000, 148000000, 0⟩, ⟨420000000, 450000000, 0⟩, ⟨0, 0, 0⟩]

/-- Split mode enumeration (source type `splitMode` with constants
`splitModeOff`, `splitModeOn`, `splitModeDUPMinus`, `splitModeDUPPlus`). -/
inductive SplitMode where
  | splitModeOff
  | splitModeOn
  | splitModeDUPMinus
  | splitModeDUPPlus
deriving DecidableEq

/-- Pending CI-V command record (source struct `civCmd`). -/
structure civCmd where
  pending : Bool
  sentAt : Nat
  name : String
  cmd : List Nat
deriving DecidableEq

/-- Identity of a named command slot on the state struct.  The Go pending
table stores pointers to these named `civCmd` fields; pointer equality in
`getPendingCmdIndex` is slot-identity equality here. -/
inductive CmdSlot where
  | getPwr | getS | getOVF | getSWR | getTransmitStatus | getPreamp | getAGC
  | getTuneStatus | getVd | getTS | getRFGain | getSQL | getNR | getNREnabled
  | getSplit | getMainVFOFreq | getSubVFOFreq | getMainVFOMode | getSubVFOMode
  | setPwr | setRFGain | setSQL | setNR | setMainVFOFreq | setSubVFOFreq
  | setMode | setSubVFOMode | setPTT | setTune | setDataMode | setPreamp
  | setAGC | setNREnabled | setTS | setVFO | setSplit
deriving DecidableEq

/-- Status report events (the `statusLog.report*` callbacks reached from the
decode path).  `reportSWR` and `reportVd` carry the raw big-endian 16-bit
value; the logger applies the float scaling, which no claim inspects. -/
inductive Report where
  | reportFrequency (f : Nat)
  | reportSubFrequency (f : Nat)
  | reportMode (name : String) (dataMode : Bool) (filter : String)
  | reportSubMode (name : String) (dataMode : Bool) (filter : String)
  | reportSplit (mode : SplitMode) (str : String)
  | reportTS (ts : Nat)
  | reportOVF (ovf : Bool)
  | reportS (str : String)
  | reportSWR (hex : Nat)
  | reportVd (hex : Nat)
  | reportTxPower (percent : Int)
  | reportRFGain (percent : Int)
  | reportSQL (percent : Int)
  | reportNR (percent : Int)
  | reportNREnabled (enabled : Bool)
  | reportPreamp (preamp : Int)
  | reportAGC (agc : String)
  | reportPTT (tx tune : Bool)
deriving DecidableEq

/-- Timeout constants in milliseconds (source constants of the same names;
`statusPollInterval = time.Second`, `commandRetryTimeout = 500ms`,
`pttTimeout = 3min`, `tuneTimeout = 30s`). -/
def statusPollInterval : Nat := 1000

/-- Retry timeout, 500 ms. -/
def commandRetryTimeout : Nat := 500

/-- PTT safety timeout, 3 minutes. -/
def pttTimeout : Nat := 180000

/-- Tune safety timeout, 30 seconds. -/
def tuneTimeout : Nat := 30000

/-- First index of an element satisfying `p`, or `none` (models the Go
linear-search loops over the fixed tables and the pending slice). -/
def findIdxP {α : Type} (p : α → Prop) [DecidablePred p] : List α → Option Nat
  | [] => none
  | x :: xs => if p x then some 0 else (findIdxP p xs).map (· + 1)

/-- Go slice indexing with an `int` index: negative or too-large indices
panic, modelled as `none`. -/
def listGetInt {α : Type} (l : List α) (i : Int) : Option α :=
  if i < 0 then none else l.get? i.toNat

/-- Digit extraction (source `getDigit`): the Go code divides a `float64`
copy of `v` by 10 `n` times and truncates.  Over the range the codec is used
for (`v < 10^10`, `n ≤ 9`) the accumulated relative error of the repeated
float64 divisions is below `9 * 2^-52`, while the distance of the exact
quotient `v / 10^n` from the nearest truncation boundary is at least
`10^-n * (10^n / 10^n) = 1/10^n ≥ 10^-9` when the quotient is not exact and
0-error when it is exact (all intermediate quotients are then representable
integers), so the float computation truncates to exactly `v / 10^n`; the
embedding uses the exact form. -/
def getDigit (v : Nat) (n : Nat) : Nat := v / 10 ^ n % 10

/-- BCD frequency encoder (source `encodeFreqData`): 5 bytes, two digits per
byte, least-significant digit in byte 0's low nibble. -/
def encodeFreqData (f : Nat) : List Nat :=
  [getDigit f 1 <<< 4 ||| getDigit f 0,
   getDigit f 3 <<< 4 ||| getDigit f 2,
   getDigit f 5 <<< 4 ||| getDigit f 4,
   getDigit f 7 <<< 4 ||| getDigit f 6,
   getDigit f 9 <<< 4 ||| getDigit f 8]

/-- Accumulator loop of `decodeFreqData`: `pos` is the current decimal
position, `f` the accumulated frequency. -/
def decodeFreqDataAux : List Nat → Nat → Nat → Nat
  | [], _, f => f
  | v :: rest, pos, f =>
      decodeFreqDataAux rest (pos + 2)
        (f + (v &&& 0x0f) * 10 ^ pos + (v >>> 4) * 10 ^ (pos + 1))

/-- BCD frequency decoder (source `decodeFreqData`). -/
def decodeFreqData (d : List Nat) : Nat := decodeFreqDataAux d 0 0

/-- Engine state: the `state` struct of `civControlStruct` plus
`stConnected` for the `st` serial-stream pointer being non-nil, with the
mutable global band table carried in `bands`.  Timers are `Option`
deadlines in milliseconds (`none` = not armed / stopped). -/
structure civState where
  stConnected : Bool
  pendingCmds : List CmdSlot
  slots : CmdSlot → civCmd
  lastSReceivedAt : Nat
  lastOVFReceivedAt : Nat
  lastSWRReceivedAt : Nat
  lastVFOFreqReceivedAt : Nat
  pttTimeoutTimer : Option Nat
  tuneTimeoutTimer : Option Nat
  transmitStatusPollTimer : Option Nat
  freq : Nat
  subFreq : Nat
  ptt : Bool
  tune : Bool
  pwrPercent : Int
  rfGainPercent : Int
  sqlPercent : Int
  nrPercent : Int
  nrEnabled : Bool
  operatingModeIdx : Int
  dataMode : Bool
  filterIdx : Int
  subOperatingModeIdx : Int
  subDataMode : Bool
  subFilterIdx : Int
  bandIdx : Int
  preamp : Int
  agc : Int
  tsValue : Nat
  ts : Nat
  vfoBActive : Bool
  splitMode : SplitMode
  bands : List civBand

/-- Overwrite one named command slot. -/
def setSlot (st : civState) (c : CmdSlot) (v : civCmd) : civState :=
  { st with slots := fun c2 => if c2 = c then v else st.slots c2 }

/-- Source `initCmd`: reset the slot and store name and raw bytes. -/
def initCmd (st : civState) (c : CmdSlot) (nm : String) (data : List Nat) : civState :=
  setSlot st c ⟨false, 0, nm, data⟩

/-- Source `getPendingCmdIndex`: first index of the slot in the pending
list (pointer comparison in Go), `none` for -1. -/
def getPendingCmdIndex (st : civState) (c : CmdSlot) : Option Nat :=
  findIdxP (fun x => x = c) st.pendingCmds

/-- Go swap-remove used by `removePendingCmd`: overwrite index `i` with the
last element and drop the last element. -/
def swapRemove (l : List CmdSlot) (i : Nat) (dflt : CmdSlot) : List CmdSlot :=
  (l.set i (l.getD (l.length - 1) dflt)).take (l.length - 1)

/-- Source `removePendingCmd`: clear the pending flag, then remove the slot
from the pending list if present (no index found leaves the list alone). -/
def removePendingCmd (st : civState) (c : CmdSlot) : civState :=
  { setSlot st c { st.slots c with pending := false } with
    pendingCmds := match getPendingCmdIndex st c with
      | none => st.pendingCmds
      | some i => swapRemove st.pendingCmds i c }

/-- Source `sendCmd`: with no serial stream, return success untouched;
otherwise mark pending with `sentAt = now`, append to the pending list when
the slot is not already there, and emit the command bytes.  The wake-up
channel signal and `st.send` errors are not modelled.  (The Go code looks
the slot up in the pending list after setting the flags; the list is the
same before and after, so the lookup is written over `st` directly.) -/
def sendCmd (st : civState) (c : CmdSlot) (now : Nat) : civState × List (List Nat) :=
  if st.stConnected then
    ({ setSlot st c { st.slots c with pending := true, sentAt := now } with
       pendingCmds := match getPendingCmdIndex st c with
         | some _ => st.pendingCmds
         | none => st.pendingCmds ++ [c] },
     [(st.slots c).cmd])
  else (st, [])

/-- Source `getVd`. -/
def getVd (ca : Nat) (now : Nat) (st : civState) : civState × List (List Nat) :=
  sendCmd (initCmd st .getVd "getVd" [0xfe, 0xfe, ca, 0xe0, 0x15, 0x15, 0xfd]) .getVd now

/-- Source `getBothVFOFreq` (send errors are nil in the model, so the second
send always happens). -/
def getBothVFOFreq (ca : Nat) (now : Nat) (st : civState) : civState × List (List Nat) :=
  let r1 := sendCmd (initCmd st .getMainVFOFreq "getMainVFOFreq"
    [0xfe, 0xfe, ca, 0xe0, 0x25, 0, 0xfd]) .getMainVFOFreq now
  let r2 := sendCmd (initCmd r1.1 .getSubVFOFreq "getSubVFOFreq"
    [0xfe, 0xfe, ca, 0xe0, 0x25, 1, 0xfd]) .getSubVFOFreq now
  (r2.1, r1.2 ++ r2.2)

/-- Source `setMainVFOFreq`. -/
def setMainVFOFreq (ca : Nat) (f : Nat) (now : Nat) (st : civState) :
    civState × List (List Nat) :=
  sendCmd (initCmd st .setMainVFOFreq "setMainVFOFreq"
    ([0xfe, 0xfe, ca, 0xe0, 0x25, 0x00] ++ encodeFreqData f ++ [0xfd])) .setMainVFOFreq now

/-- Source `setPTT`: enabling arms the 3-minute safety timer via
`time.AfterFunc` before building and sending the frame. -/
def setPTT (ca : Nat) (enable : Bool) (now : Nat) (st : civState) :
    civState × List (List Nat) :=
  let b : Nat := if enable then 1 else 0
  let st1 := if enable then { st with pttTimeoutTimer := some (now + pttTimeout) } else st
  sendCmd (initCmd st1 .setPTT "setPTT" [0xfe, 0xfe, ca, 0xe0, 0x1c, 0, b, 0xfd]) .setPTT now

/-- Callback of the `time.AfterFunc` timer armed by `setPTT(true)`: it runs
`setPTT(false)` at some time `now` at most `pttTimeout` after arming. -/
def pttTimerFire (ca : Nat) (now : Nat) (st : civState) : civState × List (List Nat) :=
  setPTT ca false now st

/-- Source `setTS`. -/
def setTS (ca : Nat) (b : Nat) (now : Nat) (st : civState) : civState × List (List Nat) :=
  sendCmd (initCmd st .setTS "setTS" [0xfe, 0xfe, ca, 0xe0, 0x10, b, 0xfd]) .setTS now

/-- Source `setSplit` (the Go switch defaults to `0x10` for off). -/
def setSplit (ca : Nat) (mode : SplitMode) (now : Nat) (st : civState) :
    civState × List (List Nat) :=
  let b : Nat := match mode with
    | .splitModeOn => 0x01
    | .splitModeDUPMinus => 0x11
    | .splitModeDUPPlus => 0x12
    | .splitModeOff => 0x10
  sendCmd (initCmd st .setSplit "setSplit" [0xfe, 0xfe, ca, 0xe0, 0x0f, b, 0xfd]) .setSplit now

/-- Source `toggleSplit`: off → on → DUP- → DUP+ → off over the cached
`splitMode`. -/
def toggleSplit (ca : Nat) (now : Nat) (st : civState) : civState × List (List Nat) :=
  let m : SplitMode := match st.splitMode with
    | .splitModeOff => .splitModeOn
    | .splitModeOn => .splitModeDUPMinus
    | .splitModeDUPMinus => .splitModeDUPPlus
    | .splitModeDUPPlus => .splitModeOff
  setSplit ca m now st

/-- One pass of the retry branch of the engine `loop`: iterate the pending
snapshot and resend every command whose `sentAt` is at least
`commandRetryTimeout` ago. -/
def retryPendingAux (now : Nat) : civState → List CmdSlot → civState × List (List Nat)
  | st, [] => (st, [])
  | st, c :: rest =>
      if commandRetryTimeout ≤ now - (st.slots c).sentAt then
        let r1 := sendCmd st c now
        let r2 := retryPendingAux now r1.1 rest
        (r2.1, r1.2 ++ r2.2)
      else retryPendingAux now st rest

/-- Retry branch entry point (`case <-time.After(nextPendingCmdTimeout)`). -/
def retryPending (st : civState) (now : Nat) : civState × List (List Nat) :=
  retryPendingAux now st st.pendingCmds

/-- Fresh engine state right after `init` set the serial stream: empty
device state, empty pending table, pristine band table. -/
def initialCivState : civState where
  stConnected := true
  pendingCmds := []
  slots := fun _ => ⟨false, 0, "", []⟩
  lastSReceivedAt := 0
  lastOVFReceivedAt := 0
  lastSWRReceivedAt := 0
  lastVFOFreqReceivedAt := 0
  pttTimeoutTimer := none
  tuneTimeoutTimer := none
  transmitStatusPollTimer := none
  freq := 0
  subFreq := 0
  ptt := false
  tune := false
  pwrPercent := 0
  rfGainPercent := 0
  sqlPercent := 0
  nrPercent := 0
  nrEnabled := false
  operatingModeIdx := 0
  dataMode := false
  filterIdx := 0
  subOperatingModeIdx := 0
  subDataMode := false
  subFilterIdx := 0
  bandIdx := 0
  preamp := 0
  agc := 0
  tsValue := 0
  ts := 0
  vfoBActive := false
  splitMode := .splitModeOff
  bands := civBands

/-- Result of one decoder call: new state, the forward-to-pass-through
boolean, frames sent while decoding, and report events. -/
abbrev decodeResult := civState × Bool × List (List Nat) × List Report

/-- Shared tail of the decoders: the Go sequence of
`if slot.pending { removePendingCmd(slot); return false }` checks followed
by `return true`. -/
def absorb (st : civState) : List CmdSlot → civState × Bool
  | [] => (st, true)
  | c :: rest =>
      if (st.slots c).pending then (removePendingCmd st c, false) else absorb st rest

/-- Source `decodeFilterValueToFilterIdx`: index of the filter code in the
table, 0 when absent. -/
def decodeFilterValueToFilterIdx (v : Nat) : Int :=
  match findIdxP (fun x => x.code = v) civFilters with
  | some i => (i : Int)
  | none => 0

/-- Percent scaling of the 0x14 analog readbacks: the Go code computes
`int(math.Round((float64(hex) / 0x0255) * 100))`.  For `hex ≤ 0xffff` the
exact value `100*hex/597` is never half-way between integers
(`200*hex` is even while `1194*k + 597` is odd) and its distance from the
nearest half-integer, at least `1/1194`, exceeds the float64 rounding error
(below `2^-40`), so the float rounding equals exact rounding, written here
as `(200*hex + 597) / 1194`. -/
def analogPercent (hex : Nat) : Int := ((200 * hex + 597) / 1194 : Nat)

/-- Source `decodeMode` (commands 0x01/0x04/0x06): look up the mode code,
optionally the filter code, report, and absorb a pending `setMode`. -/
def decodeMode (st : civState) (d : List Nat) : Option decodeResult :=
  if d.length < 1 then some (st, !(st.slots .setMode).pending, [], [])
  else
    let st1 := match findIdxP (fun m => m.code = d.getD 0 0) civOperatingModes with
      | some i => { st with operatingModeIdx := (i : Int) }
      | none => st
    let st2 := if 1 < d.length then
        { st1 with filterIdx := decodeFilterValueToFilterIdx (d.getD 1 0) }
      else st1
    match listGetInt civOperatingModes st2.operatingModeIdx,
          listGetInt civFilters st2.filterIdx with
    | some m, some fl =>
        let ab := absorb st2 [.setMode]
        some (ab.1, ab.2, [], [.reportMode m.name st2.dataMode fl.name])
    | _, _ => none

/-- Source `decodeVFO` (command 0x07): a pending `setVFO` triggers
`getBothVFOFreq` before being removed. -/
def decodeVFO (ca : Nat) (now : Nat) (st : civState) (d : List Nat) :
    Option decodeResult :=
  if d.length < 1 then some (st, !(st.slots .setVFO).pending, [], [])
  else
    let st1 := if d.getD 0 0 = 1 then { st with vfoBActive := true }
      else { st with vfoBActive := false }
    if (st1.slots .setVFO).pending then
      let r := getBothVFOFreq ca now st1
      some (removePendingCmd r.1 .setVFO, false, r.2, [])
    else some (st1, true, [], [])

/-- Source `decodeSplit` (command 0x0F). -/
def decodeSplit (st : civState) (d : List Nat) : Option decodeResult :=
  if d.length < 1 then
    some (st, !(st.slots .getSplit).pending && !(st.slots .setSplit).pending, [], [])
  else
    let sm : SplitMode := match d.getD 0 0 with
      | 0x01 => .splitModeOn
      | 0x11 => .splitModeDUPMinus
      | 0x12 => .splitModeDUPPlus
      | _ => .splitModeOff
    let str : String := match d.getD 0 0 with
      | 0x01 => "SPLIT"
      | 0x11 => "DUP-"
      | 0x12 => "DUP+"
      | _ => ""
    let st1 := { st with splitMode := sm }
    let ab := absorb st1 [.getSplit, .setSplit]
    some (ab.1, ab.2, [], [.reportSplit sm str])

/-- Source `decodeTS` (command 0x10): tuning-step code to Hz (the Go switch
defaults to 1). -/
def decodeTS (st : civState) (d : List Nat) : Option decodeResult :=
  if d.length < 1 then
    some (st, !(st.slots .getTS).pending && !(st.slots .setTS).pending, [], [])
  else
    let v := d.getD 0 0
    let tsHz : Nat := match v with
      | 1 => 100 | 2 => 500 | 3 => 1000 | 4 => 5000 | 5 => 6250 | 6 => 8330
      | 7 => 9000 | 8 => 10000 | 9 => 12500 | 10 => 20000 | 11 => 25000
      | 12 => 50000 | 13 => 100000 | _ => 1
    let st1 := { st with tsValue := v, ts := tsHz }
    let ab := absorb st1 [.getTS, .setTS]
    some (ab.1, ab.2, [], [.reportTS tsHz])

/-- Source `decodeDataModeAndOVF` (command 0x1A).  The Go code indexes
`d[0]` before any length check, so an empty payload panics (`none`). -/
def decodeDataModeAndOVF (now : Nat) (st : civState) (d : List Nat) :
    Option decodeResult :=
  if d.length = 0 then none
  else match d.getD 0 0 with
    | 0x06 =>
      if d.length < 3 then some (st, !(st.slots .setDataMode).pending, [], [])
      else
        let st1 := if d.getD 1 0 = 1 then
            { st with dataMode := true,
                      filterIdx := decodeFilterValueToFilterIdx (d.getD 2 0) }
          else { st with dataMode := false }
        match listGetInt civOperatingModes st1.operatingModeIdx,
              listGetInt civFilters st1.filterIdx with
        | some m, some fl =>
            let ab := absorb st1 [.setDataMode]
            some (ab.1, ab.2, [], [.reportMode m.name st1.dataMode fl.name])
        | _, _ => none
    | 0x09 =>
      if d.length < 2 then some (st, !(st.slots .getOVF).pending, [], [])
      else
        let st1 := { st with lastOVFReceivedAt := now }
        let ab := absorb st1 [.getOVF]
        some (ab.1, ab.2, [], [.reportOVF (if d.getD 1 0 = 0 then false else true)])
    | _ => some (st, true, [], [])

/-- Source `decodePowerRFGainSQLNRPwr` (command 0x14).  `d[0]` is indexed
before any length check (empty payload panics); the 16-bit value is
`uint16(d[1])<<8 | uint16(d[2])`. -/
def decodePowerRFGainSQLNRPwr (st : civState) (d : List Nat) : Option decodeResult :=
  if d.length = 0 then none
  else
    let hex := 256 * d.getD 1 0 + d.getD 2 0
    match d.getD 0 0 with
    | 0x02 =>
      if d.length < 3 then
        some (st, !(st.slots .getRFGain).pending && !(st.slots .setRFGain).pending, [], [])
      else
        let st1 := { st with rfGainPercent := analogPercent hex }
        let ab := absorb st1 [.getRFGain, .setRFGain]
        some (ab.1, ab.2, [], [.reportRFGain st1.rfGainPercent])
    | 0x03 =>
      if d.length < 3 then
        some (st, !(st.slots .getSQL).pending && !(st.slots .setSQL).pending, [], [])
      else
        let st1 := { st with sqlPercent := analogPercent hex }
        let ab := absorb st1 [.getSQL, .setSQL]
        some (ab.1, ab.2, [], [.reportSQL st1.sqlPercent])
    | 0x06 =>
      if d.length < 3 then
        some (st, !(st.slots .getNR).pending && !(st.slots .setNR).pending, [], [])
      else
        let st1 := { st with nrPercent := analogPercent hex }
        let ab := absorb st1 [.getNR, .setNR]
        some (ab.1, ab.2, [], [.reportNR st1.nrPercent])
    | 0x0a =>
      if d.length < 3 then
        some (st, !(st.slots .getPwr).pending && !(st.slots .setPwr).pending, [], [])
      else
        let st1 := { st with pwrPercent := analogPercent hex }
        let ab := absorb st1 [.getPwr, .setPwr]
        some (ab.1, ab.2, [], [.reportTxPower st1.pwrPercent])
    | _ => some (st, true, [], [])

/-- Source `decodeTransmitStatus` (command 0x1C).  The PTT-release edge
stops the PTT timer (with nil check) and issues `getVd`; the tune-finished
edge calls `tuneTimeoutTimer.Stop()` with no nil check, a panic when the
timer was never armed (`none`); `tune == 2` schedules a
`getTransmitStatus` poll one second later. -/
def decodeTransmitStatus (ca : Nat) (now : Nat) (st : civState) (d : List Nat) :
    Option decodeResult :=
  if d.length < 2 then
    some (st, !(st.slots .getTuneStatus).pending && !(st.slots .getTransmitStatus).pending
              && !(st.slots .setPTT).pending, [], [])
  else match d.getD 0 0 with
    | 0 =>
      let r1 : civState × List (List Nat) :=
        if d.getD 1 0 = 1 then ({ st with ptt := true }, [])
        else if st.ptt then
          getVd ca now { st with ptt := false, pttTimeoutTimer := none }
        else (st, [])
      let ab := absorb r1.1 [.setPTT, .getTuneStatus, .getTransmitStatus]
      some (ab.1, ab.2, r1.2, [.reportPTT r1.1.ptt r1.1.tune])
    | 1 =>
      if d.getD 1 0 = 2 then
        let st1 := { st with tune := true, transmitStatusPollTimer := some (now + 1000) }
        let ab := absorb st1 [.setTune, .getTuneStatus, .getTransmitStatus]
        some (ab.1, ab.2, [], [.reportPTT st1.ptt st1.tune])
      else if st.tune then
        match st.tuneTimeoutTimer with
        | none => none
        | some _ =>
          let r := getVd ca now { st with tune := false, tuneTimeoutTimer := none }
          let ab := absorb r.1 [.setTune, .getTuneStatus, .getTransmitStatus]
          some (ab.1, ab.2, r.2, [.reportPTT r.1.ptt r.1.tune])
      else
        let ab := absorb st [.setTune, .getTuneStatus, .getTransmitStatus]
        some (ab.1, ab.2, [], [.reportPTT st.ptt st.tune])
    | _ =>
      let ab := absorb st [.getTuneStatus, .getTransmitStatus]
      some (ab.1, ab.2, [], [])

/-- S-meter value scaling of `decodeVdSWRS` case 0x02: the Go code computes
`int(math.Round(((float64(int(d[1])<<8) + float64(d[2])) / 0x0241) * 18))`.
As with `analogPercent`, `36*hex` is even while `1154*k + 577` is odd, so
the exact value `18*hex/577` is never half-way between integers and the
float64 error (below `2^-39`) cannot cross the `1/1154` gap; exact rounding
is `(36*hex + 577) / 1154`. -/
def sMeterValue (hex : Nat) : Nat := (36 * hex + 577) / 1154

/-- S-meter string ladder of `decodeVdSWRS` case 0x02. -/
def sMeterString (sValue : Nat) : String :=
  if sValue ≤ 9 then "S" ++ toString sValue
  else "S9+" ++ (match sValue with
    | 10 => "10" | 11 => "20" | 12 => "30" | 13 => "40" | 14 => "40"
    | 15 => "40" | 16 => "40" | 17 => "50" | 18 => "50" | _ => "60")

/-- Source `decodeVdSWRS` (command 0x15).  `d[0]` is indexed before any
length check (empty payload panics). -/
def decodeVdSWRS (now : Nat) (st : civState) (d : List Nat) : Option decodeResult :=
  if d.length = 0 then none
  else
    let hex := 256 * d.getD 1 0 + d.getD 2 0
    match d.getD 0 0 with
    | 0x02 =>
      if d.length < 3 then some (st, !(st.slots .getS).pending, [], [])
      else
        let st1 := { st with lastSReceivedAt := now }
        let ab := absorb st1 [.getS]
        some (ab.1, ab.2, [], [.reportS (sMeterString (sMeterValue hex))])
    | 0x12 =>
      if d.length < 3 then some (st, !(st.slots .getSWR).pending, [], [])
      else
        let st1 := { st with lastSWRReceivedAt := now }
        let ab := absorb st1 [.getSWR]
        some (ab.1, ab.2, [], [.reportSWR hex])
    | 0x15 =>
      if d.length < 3 then some (st, !(st.slots .getVd).pending, [], [])
      else
        let ab := absorb st [.getVd]
        some (ab.1, ab.2, [], [.reportVd hex])
    | _ => some (st, true, [], [])

/-- Source `decodePreampAGCNREnabled` (command 0x16).  `d[0]` is indexed
before any length check (empty payload panics). -/
def decodePreampAGCNREnabled (st : civState) (d : List Nat) : Option decodeResult :=
  if d.length = 0 then none
  else match d.getD 0 0 with
    | 0x02 =>
      if d.length < 2 then
        some (st, !(st.slots .getPreamp).pending && !(st.slots .setPreamp).pending, [], [])
      else
        let st1 := { st with preamp := (d.getD 1 0 : Int) }
        let ab := absorb st1 [.getPreamp, .setPreamp]
        some (ab.1, ab.2, [], [.reportPreamp st1.preamp])
    | 0x12 =>
      if d.length < 2 then
        some (st, !(st.slots .getAGC).pending && !(st.slots .setAGC).pending, [], [])
      else
        let st1 := { st with agc := (d.getD 1 0 : Int) }
        let agcStr : String := match d.getD 1 0 with
          | 1 => "F" | 2 => "M" | 3 => "S" | _ => ""
        let ab := absorb st1 [.getAGC, .setAGC]
        some (ab.1, ab.2, [], [.reportAGC agcStr])
    | 0x40 =>
      if d.length < 2 then
        some (st, !(st.slots .getNREnabled).pending && !(st.slots .setNREnabled).pending, [], [])
      else
        let st1 := { st with nrEnabled := d.getD 1 0 = 1 }
        let ab := absorb st1 [.getNREnabled, .setNREnabled]
        some (ab.1, ab.2, [], [.reportNREnabled st1.nrEnabled])
    | _ => some (st, true, [], [])

/-- Source `decodeVFOFreq` (command 0x25): sub VFO for `d[0] == 1`,
otherwise main VFO with the band-table lookup (default band GENE, index
`len(civBands)-1`; a hit updates the row's cached `freq`). -/
def decodeVFOFreq (st : civState) (d : List Nat) : Option decodeResult :=
  if d.length < 2 then
    some (st, !(st.slots .getMainVFOFreq).pending && !(st.slots .getSubVFOFreq).pending
              && !(st.slots .setSubVFOFreq).pending, [], [])
  else
    let f := decodeFreqData (d.drop 1)
    match d.getD 0 0 with
    | 0x01 =>
      let st1 := { st with subFreq := f }
      let ab := absorb st1 [.getSubVFOFreq, .setSubVFOFreq]
      some (ab.1, ab.2, [], [.reportSubFrequency f])
    | _ =>
      let st1 := { st with freq := f }
      let st2 := match findIdxP (fun r => r.freqFrom ≤ f ∧ f ≤ r.freqTo) st1.bands with
        | some i =>
            { st1 with bandIdx := (i : Int),
                       bands := st1.bands.set i { st1.bands.getD i ⟨0, 0, 0⟩ with freq := f } }
        | none => { st1 with bandIdx := (st1.bands.length : Int) - 1 }
      let ab := absorb st2 [.getMainVFOFreq, .setMainVFOFreq]
      some (ab.1, ab.2, [], [.reportFrequency f])

/-- Source `decodeVFOMode` (command 0x26): an unknown mode code yields
index −1, a missing filter byte yields filter index −1; the subsequent
status-report table lookups then panic (`none`). -/
def decodeVFOMode (st : civState) (d : List Nat) : Option decodeResult :=
  if d.length < 2 then
    some (st, !(st.slots .getMainVFOMode).pending && !(st.slots .getSubVFOMode).pending
              && !(st.slots .setSubVFOMode).pending, [], [])
  else
    let opIdx : Int := match findIdxP (fun m => m.code = d.getD 1 0) civOperatingModes with
      | some i => (i : Int)
      | none => -1
    let dm : Bool := if 2 < d.length then (if d.getD 2 0 = 0 then false else true) else false
    let fIdx : Int := if 3 < d.length then decodeFilterValueToFilterIdx (d.getD 3 0) else -1
    match d.getD 0 0 with
    | 0x01 =>
      let st1 := { st with subOperatingModeIdx := opIdx, subDataMode := dm,
                           subFilterIdx := fIdx }
      match listGetInt civOperatingModes st1.subOperatingModeIdx,
            listGetInt civFilters st1.subFilterIdx with
      | some m, some fl =>
          let ab := absorb st1 [.getSubVFOMode, .setSubVFOMode]
          some (ab.1, ab.2, [], [.reportSubMode m.name st1.subDataMode fl.name])
      | _, _ => none
    | _ =>
      let st1 := { st with operatingModeIdx := opIdx, dataMode := dm }
      let st2 := if 0 ≤ fIdx then { st1 with filterIdx := fIdx } else st1
      match listGetInt civOperatingModes st2.operatingModeIdx,
            listGetInt civFilters st2.filterIdx with
      | some m, some fl =>
          let ab := absorb st2 [.getMainVFOMode]
          some (ab.1, ab.2, [], [.reportMode m.name st2.dataMode fl.name])
      | _, _ => none

/-- Source `decode`: frames shorter than 6 bytes or without the FE FE … FD
sentinels are passed through untouched; otherwise the payload
`d[5 : len(d)-1]` goes to the decoder selected by `d[4]`. -/
def decode (ca : Nat) (now : Nat) (st : civState) (d : List Nat) : Option decodeResult :=
  if d.length < 6 ∨ d.getD 0 0 ≠ 0xfe ∨ d.getD 1 0 ≠ 0xfe
      ∨ d.getD (d.length - 1) 0 ≠ 0xfd then
    some (st, true, [], [])
  else
    let p := (d.drop 5).dropLast
    match d.getD 4 0 with
    | 0x01 => decodeMode st p
    | 0x04 => decodeMode st p
    | 0x06 => decodeMode st p
    | 0x07 => decodeVFO ca now st p
    | 0x0f => decodeSplit st p
    | 0x10 => decodeTS st p
    | 0x1a => decodeDataModeAndOVF now st p
    | 0x14 => decodePowerRFGainSQLNRPwr st p
    | 0x1c => decodeTransmitStatus ca now st p
    | 0x15 => decodeVdSWRS now st p
    | 0x16 => decodePreampAGCNREnabled st p
    | 0x25 => decodeVFOFreq st p
    | 0x26 => decodeVFOMode st p
    | _ => some (st, true, [], [])

/-- Error-count bookkeeping of one iteration of the `main` read loop in
src/main.go: on a read error the counter is incremented and
`log.Fatal("timeout")` fires when it exceeds 5 (`none`); in every
non-fatal iteration execution then reaches the unconditional
`errCount = 0` statement after the error branch. -/
def errCountStep (ec : Nat) (readErr : Bool) : Option Nat :=
  if readErr then (if 5 < ec + 1 then none else some 0) else some 0

/-- Iterated main-loop error counting over a trace of read outcomes
(`true` = read returned an error, i.e. a timeout, since non-timeout errors
already die inside `read`). -/
def runReadLoop : Nat → List Bool → Option Nat
  | ec, [] => some ec
  | ec, e :: rest =>
      match errCountStep ec e with
      | none => none
      | some ec2 => runReadLoop ec2 rest

/-- Occurrence count of a slot in the pending list. -/
def countSlot (c : CmdSlot) : List CmdSlot → Nat
  | [] => 0
  | x :: xs => (if x = c then 1 else 0) + countSlot c xs

/-- Claimed invariant: the four percent fields lie in [0, 100]. -/
def percentsOK (st : civState) : Prop :=
  0 ≤ st.pwrPercent ∧ st.pwrPercent ≤ 100 ∧
  0 ≤ st.rfGainPercent ∧ st.rfGainPercent ≤ 100 ∧
  0 ≤ st.sqlPercent ∧ st.sqlPercent ≤ 100 ∧
  0 ≤ st.nrPercent ∧ st.nrPercent ≤ 100

instance (st : civState) : Decidable (percentsOK st) := by
  unfold percentsOK; infer_instance

/-- Percent invariant lifted over a decoder result (`none` = the Go decode
panicked, so no state to constrain). -/
def percentsOKRes : Option decodeResult → Prop
  | none => True
  | some r => percentsOK r.1

instance (r : Option decodeResult) : Decidable (percentsOKRes r) := by
  unfold percentsOKRes; cases r <;> infer_instance

/-- Hypothesis under which the percent invariant can survive: whenever the
frame is a 0x14 analog readback, its big-endian 16-bit value is at most
0x0255 (the largest value the radio emits). -/
def analogHexOK (d : List Nat) : Prop :=
  d.getD 4 0 = 0x14 →
    256 * ((d.drop 5).dropLast.getD 1 0) + (d.drop 5).dropLast.getD 2 0 ≤ 0x0255

instance (d : List Nat) : Decidable (analogHexOK d) := by
  unfold analogHexOK; infer_instance

/-- Claimed invariant on the index fields (together with the band-table
length they index into). -/
def idxOK (st : civState) : Prop :=
  0 ≤ st.operatingModeIdx ∧ st.operatingModeIdx < 10 ∧
  0 ≤ st.subOperatingModeIdx ∧ st.subOperatingModeIdx < 10 ∧
  0 ≤ st.filterIdx ∧ st.filterIdx < 3 ∧
  0 ≤ st.subFilterIdx ∧ st.subFilterIdx < 3 ∧
  0 ≤ st.bandIdx ∧ st.bandIdx < 15 ∧
  st.bands.length = 15

instance (st : civState) : Decidable (idxOK st) := by
  unfold idxOK; infer_instance

/-- Index invariant lifted over a decoder result. -/
def idxOKRes : Option decodeResult → Prop
  | none => True
  | some r => idxOK r.1

instance (r : Option decodeResult) : Decidable (idxOKRes r) := by
  unfold idxOKRes; cases r <;> infer_instance

/-- One toggle step of the split-cycle scenario: call `toggleSplit`, pull
the body byte (fifth position) out of the emitted frame, and decode the
radio's echo of the new split state; returns that byte, the split mode the
engine then caches, and the next state. -/
def splitToggleStep (st : civState) : Option (Nat × SplitMode × civState) :=
  let r := toggleSplit 0xa4 0 st
  let b := (r.2.headD []).getD 5 0
  (decode 0xa4 0 r.1 [0xfe, 0xfe, 0xe0, 0xa4, 0x0f, b, 0xfd]).map
    fun x => (b, x.1.splitMode, x.1)

/-- Four successive toggle steps from the initial (split off) state,
collecting each emitted body byte and each resulting cached split mode. -/
def splitToggleCycle : Option (List (Nat × SplitMode)) :=
  (splitToggleStep initialCivState).bind fun a =>
    (splitToggleStep a.2.2).bind fun b =>
      (splitToggleStep b.2.2).bind fun c =>
        (splitToggleStep c.2.2).map fun e =>
          [(a.1, a.2.1), (b.1, b.2.1), (c.1, c.2.1), (e.1, e.2.1)]

/-! ### Helper lemmas -/

/-- Nibble extraction: the low nibble of a packed BCD byte. -/
lemma nibble_low (a b : Nat) (ha : a < 10) (hb : b < 10) :
    (a <<< 4 ||| b) &&& 0x0f = b := by
  interval_cases a <;> interval_cases b <;> rfl

/-- Nibble extraction: the high nibble of a packed BCD byte. -/
lemma nibble_high (a b : Nat) (ha : a < 10) (hb : b < 10) :
    (a <<< 4 ||| b) >>> 4 = a := by
  interval_cases a <;> interval_cases b <;> rfl

lemma getDigit_lt (v n : Nat) : getDigit v n < 10 := Nat.mod_lt _ (by norm_num)

/-! ### C2: the BCD frequency codec round trip -/

/-- C2: for every frequency `f` in `[0, 10^10)`,
`decodeFreqData(encodeFreqData(f)) == f`; the 5-byte BCD codec (two digits
per byte, least-significant digits in byte 0's low nibble) is exact over
the whole range, including the digit extraction done by `getDigit`, whose
repeated float64 division never truncates differently from exact division
on this range. -/
theorem decodeFreqData_encodeFreqData (f : Nat) (hf : f < 10 ^ 10) :
    decodeFreqData (encodeFreqData f) = f := by
  simp only [decodeFreqData, encodeFreqData, decodeFreqDataAux,
    nibble_low _ _ (getDigit_lt f _) (getDigit_lt f _),
    nibble_high _ _ (getDigit_lt f _) (getDigit_lt f _)]
  simp only [getDigit]
  norm_num at hf ⊢
  omega

/-- Witness for C2 at the largest representable frequency. -/
theorem decodeFreqData_encodeFreqData_witness :
    9999999999 < 10 ^ 10 ∧ decodeFreqData (encodeFreqData 9999999999) = 9999999999 :=
  ⟨by norm_num, decodeFreqData_encodeFreqData 9999999999 (by norm_num)⟩

/-! ### C1: frequency set round trip at 14.250 MHz -/

/-- C1: with civAddress 0xA4, `setMainVFOFreq(14250000)` emits exactly
`FE FE A4 E0 25 00 00 00 25 14 00 FD`; decoding the reply
`FE FE E0 A4 25 00 00 00 25 14 00 FD` then sets `state.freq = 14250000`
and `state.bandIdx = 4`, clears the `setMainVFOFreq` pending slot (and
leaves the pending table empty), and returns false, so the reply is not
forwarded to the pass-through consumer. -/
theorem setMainVFOFreq_14250000_roundtrip :
    (setMainVFOFreq 0xa4 14250000 0 initialCivState).2 =
      [[0xfe, 0xfe, 0xa4, 0xe0, 0x25, 0x00, 0x00, 0x00, 0x25, 0x14, 0x00, 0xfd]] ∧
    ((decode 0xa4 1 (setMainVFOFreq 0xa4 14250000 0 initialCivState).1
        [0xfe, 0xfe, 0xe0, 0xa4, 0x25, 0x00, 0x00, 0x00, 0x25, 0x14, 0x00, 0xfd]).map
      fun r => (r.1.freq, r.1.bandIdx, (r.1.slots .setMainVFOFreq).pending,
                r.1.pendingCmds, r.2.1)) =
      some (14250000, 4, false, [], false) := by
  decide

/-! ### C7: S-meter decode of FE FE E0 A4 15 02 01 20 FD -/

/-- C7 counterexample: the claim says the frame
`FE FE E0 A4 15 02 01 20 FD` is reported as "S5", but the source formula
rounds `(0x0120 / 0x0241) * 18 = 8.98…` to 9 and reports "S9". -/
theorem decodeS_0120_not_S5 :
    ((decode 0xa4 7 initialCivState
        [0xfe, 0xfe, 0xe0, 0xa4, 0x15, 0x02, 0x01, 0x20, 0xfd]).map
      fun r => r.2.2.2) = some [Report.reportS "S9"] ∧
    ((decode 0xa4 7 initialCivState
        [0xfe, 0xfe, 0xe0, 0xa4, 0x15, 0x02, 0x01, 0x20, 0xfd]).map
      fun r => r.2.2.2) ≠ some [Report.reportS "S5"] := by
  decide

/-! ### C8: consecutive receive timeouts in the main read loop -/

/-- C8: the claim says the fifth consecutive receive timeout is fatal, but
src/main.go resets `errCount` to zero unconditionally at the end of every
loop iteration (the reset sits outside the error branch), so the counter
never exceeds 1 and no run of consecutive timeouts ever reaches the
`errCount > 5` fatal test: five — or any number of — consecutive timeouts
leave the loop alive. -/
theorem runReadLoop_timeouts_never_fatal :
    runReadLoop 0 (List.replicate 5 true) = some 0 ∧
    ∀ n, runReadLoop 0 (List.replicate n true) = some 0 := by
  refine ⟨by decide, fun n => ?_⟩
  induction n with
  | zero => rfl
  | succ k ih => simpa [List.replicate_succ, runReadLoop, errCountStep] using ih

/-! ### C9: the split toggle cycle -/

/-- C9: starting from `splitMode = off`, four successive `toggleSplit()`
calls (each followed by decoding the radio's echo of the new split state)
emit body bytes 0x01, 0x11, 0x12, 0x10 in the fifth position and drive the
cached state through on, DUP-, DUP+ and back to off. -/
theorem toggleSplit_cycle :
    splitToggleCycle = some
      [(0x01, .splitModeOn), (0x11, .splitModeDUPMinus),
       (0x12, .splitModeDUPPlus), (0x10, .splitModeOff)] := by
  decide

/-! ### C5, C6, C10: counterexamples -/

/-- C5 counterexample: the claim says every decoded 0x14 analog-readback
frame, with an arbitrary big-endian 16-bit value, leaves the percent
fields in [0, 100]; decoding `FE FE E0 A4 14 0A FF FF FD` from the initial
state completes and sets `pwrPercent` to 10977. -/
theorem decodePwr_ffff_out_of_range :
    ((decode 0xa4 0 initialCivState
        [0xfe, 0xfe, 0xe0, 0xa4, 0x14, 0x0a, 0xff, 0xff, 0xfd]).map
      fun r => r.1.pwrPercent) = some 10977 ∧
    ¬ percentsOKRes (decode 0xa4 0 initialCivState
        [0xfe, 0xfe, 0xe0, 0xa4, 0x14, 0x0a, 0xff, 0xff, 0xfd]) := by
  decide

/-- C6 counterexample: the claim says a 0x26 VFO-mode frame whose mode code
is not in the 10-entry mode table preserves the index bounds and that the
following status-report table lookups are in bounds; on
`FE FE E0 A4 26 00 FF FD` the source writes −1 into `operatingModeIdx` and
then indexes `civOperatingModes[-1]` for the report — an out-of-range
lookup (Go runtime panic), so the decode does not even complete. -/
theorem decodeVFOMode_unknown_code_panics :
    decode 0xa4 0 initialCivState [0xfe, 0xfe, 0xe0, 0xa4, 0x26, 0x00, 0xff, 0xfd] = none := by
  rfl

/-- C10 counterexample: the claim says a set/get method called with the
serial stream unset leaves the engine state unchanged; `setTS` still
rewrites its named command slot through `initCmd` before `sendCmd` bails
out, so the state does change (while indeed nothing is sent). -/
theorem setTS_unset_stream_changes_slot :
    ((setTS 0xa4 5 0 { initialCivState with stConnected := false }).1.slots .setTS ≠
      { initialCivState with stConnected := false }.slots .setTS) ∧
    (setTS 0xa4 5 0 { initialCivState with stConnected := false }).2 = [] := by
  decide

/-! ### Field-preservation lemmas for the pending-table primitives -/

lemma sendCmd_fst_stConnected (st : civState) (c : CmdSlot) (now : Nat) :
    (sendCmd st c now).1.stConnected = st.stConnected := by
  unfold sendCmd; split <;> rfl

lemma sendCmd_fst_pttTimeoutTimer (st : civState) (c : CmdSlot) (now : Nat) :
    (sendCmd st c now).1.pttTimeoutTimer = st.pttTimeoutTimer := by
  unfold sendCmd; split <;> rfl

lemma sendCmd_snd (st : civState) (c : CmdSlot) (now : Nat)
    (h : st.stConnected = true) :
    (sendCmd st c now).2 = [(st.slots c).cmd] := by
  unfold sendCmd; rw [h]; simp

lemma sendCmd_slot_self (st : civState) (c : CmdSlot) (now : Nat)
    (h : st.stConnected = true) :
    (sendCmd st c now).1.slots c = { st.slots c with pending := true, sentAt := now } := by
  unfold sendCmd; rw [h]; simp [setSlot]

lemma sendCmd_slot_other (st : civState) (c c2 : CmdSlot) (now : Nat)
    (h2 : c2 ≠ c) :
    (sendCmd st c now).1.slots c2 = st.slots c2 := by
  unfold sendCmd; split <;> simp [setSlot, h2]

lemma findIdxP_isSome_of_mem {α : Type} [DecidableEq α] (c : α) (l : List α)
    (h : c ∈ l) : (findIdxP (fun x => x = c) l).isSome := by
  induction l with
  | nil => cases h
  | cons x rest ih =>
      unfold findIdxP
      by_cases hx : x = c
      · simp [hx]
      · rcases List.mem_cons.mp h with h1 | h1
        · exact absurd h1.symm hx
        · simpa [hx] using ih h1

lemma sendCmd_pendingCmds_of_mem (st : civState) (c : CmdSlot) (now : Nat)
    (h : c ∈ st.pendingCmds) :
    (sendCmd st c now).1.pendingCmds = st.pendingCmds := by
  unfold sendCmd
  split
  · have hs := findIdxP_isSome_of_mem c st.pendingCmds h
    unfold getPendingCmdIndex
    rcases hi : findIdxP (fun x => x = c) st.pendingCmds with _ | i
    · rw [hi] at hs; cases hs
    · simp [hi]
  · rfl

/-! ### Invariant-transfer lemmas along the decoder plumbing -/

lemma percentsOK_initCmd (st : civState) (c : CmdSlot) (nm : String) (data : List Nat) :
    percentsOK (initCmd st c nm data) ↔ percentsOK st := Iff.rfl

lemma percentsOK_removePendingCmd (st : civState) (c : CmdSlot) :
    percentsOK (removePendingCmd st c) ↔ percentsOK st := Iff.rfl

lemma percentsOK_sendCmd (st : civState) (c : CmdSlot) (now : Nat) :
    percentsOK (sendCmd st c now).1 ↔ percentsOK st := by
  unfold sendCmd; split <;> exact Iff.rfl

lemma percentsOK_absorb (st : civState) (l : List CmdSlot) :
    percentsOK (absorb st l).1 ↔ percentsOK st := by
  induction l with
  | nil => exact Iff.rfl
  | cons c rest ih =>
      unfold absorb
      split
      · exact Iff.rfl
      · exact ih

lemma percentsOK_getVd (ca now : Nat) (st : civState) :
    percentsOK (getVd ca now st).1 ↔ percentsOK st := by
  unfold getVd; rw [percentsOK_sendCmd]; exact Iff.rfl

lemma percentsOK_getBothVFOFreq (ca now : Nat) (st : civState) :
    percentsOK (getBothVFOFreq ca now st).1 ↔ percentsOK st := by
  unfold getBothVFOFreq
  rw [percentsOK_sendCmd, percentsOK_initCmd, percentsOK_sendCmd, percentsOK_initCmd]

lemma idxOK_initCmd (st : civState) (c : CmdSlot) (nm : String) (data : List Nat) :
    idxOK (initCmd st c nm data) ↔ idxOK st := Iff.rfl

lemma idxOK_removePendingCmd (st : civState) (c : CmdSlot) :
    idxOK (removePendingCmd st c) ↔ idxOK st := Iff.rfl

lemma idxOK_sendCmd (st : civState) (c : CmdSlot) (now : Nat) :
    idxOK (sendCmd st c now).1 ↔ idxOK st := by
  unfold sendCmd; split <;> exact Iff.rfl

lemma idxOK_absorb (st : civState) (l : List CmdSlot) :
    idxOK (absorb st l).1 ↔ idxOK st := by
  induction l with
  | nil => exact Iff.rfl
  | cons c rest ih =>
      unfold absorb
      split
      · exact Iff.rfl
      · exact ih

lemma idxOK_getVd (ca now : Nat) (st : civState) :
    idxOK (getVd ca now st).1 ↔ idxOK st := by
  unfold getVd; rw [idxOK_sendCmd]; exact Iff.rfl

lemma idxOK_getBothVFOFreq (ca now : Nat) (st : civState) :
    idxOK (getBothVFOFreq ca now st).1 ↔ idxOK st := by
  unfold getBothVFOFreq
  rw [idxOK_sendCmd, idxOK_initCmd, idxOK_sendCmd, idxOK_initCmd]

lemma lastS_absorb (st : civState) (l : List CmdSlot) :
    (absorb st l).1.lastSReceivedAt = st.lastSReceivedAt := by
  induction l with
  | nil => rfl
  | cons c rest ih =>
      unfold absorb
      split
      · rfl
      · exact ih

/-! ### C3: the PTT safety timer -/

/-- C3: `setPTT(true)` at time `now` arms the PTT timer with deadline
exactly `now + pttTimeout` (3 minutes), and, with no transmit-status reply
having disarmed it, its firing runs `setPTT(false)`, which emits the frame
`FE FE A4 E0 1C 00 00 FD` (civAddress 0xA4). -/
theorem setPTT_arms_timer_and_fires_off (st : civState) (now t : Nat)
    (h : st.stConnected = true) :
    (setPTT 0xa4 true now st).1.pttTimeoutTimer = some (now + pttTimeout) ∧
    (pttTimerFire 0xa4 t (setPTT 0xa4 true now st).1).2 =
      [[0xfe, 0xfe, 0xa4, 0xe0, 0x1c, 0x00, 0x00, 0xfd]] := by
  have hconn : (setPTT 0xa4 true now st).1.stConnected = true := by
    simp only [setPTT]
    rw [sendCmd_fst_stConnected]
    simpa [initCmd, setSlot] using h
  constructor
  · simp only [setPTT]
    rw [sendCmd_fst_pttTimeoutTimer]
    simp [initCmd, setSlot]
  · simp only [pttTimerFire, setPTT]
    rw [sendCmd_snd _ _ _ (by simpa [initCmd, setSlot] using hconn)]
    simp [initCmd, setSlot]

/-- Witness for C3 at the initial state. -/
theorem setPTT_arms_timer_and_fires_off_witness :
    initialCivState.stConnected = true ∧
    ((setPTT 0xa4 true 0 initialCivState).1.pttTimeoutTimer = some (0 + pttTimeout) ∧
     (pttTimerFire 0xa4 180000 (setPTT 0xa4 true 0 initialCivState).1).2 =
       [[0xfe, 0xfe, 0xa4, 0xe0, 0x1c, 0x00, 0x00, 0xfd]]) :=
  ⟨rfl, setPTT_arms_timer_and_fires_off initialCivState 0 180000 rfl⟩

/-! ### C10 amended: commands on an unset serial stream -/

/-- C10 amended: with the serial stream unset, `sendCmd` returns success
with the state untouched and nothing sent, so a command method (here
`setTS`, representative of the pattern shared by all of them) sends no
bytes, marks nothing pending and leaves the pending table unchanged — but
the engine state is not unchanged in general, because the method still
re-initializes its named command slot before `sendCmd` bails out (and
`setPTT(true)` additionally arms the PTT timer). -/
theorem nil_stream_sendCmd_noop (st : civState) (c : CmdSlot) (b now : Nat)
    (h : st.stConnected = false) :
    sendCmd st c now = (st, []) ∧
    (setTS 0xa4 b now st).2 = [] ∧
    (setTS 0xa4 b now st).1.pendingCmds = st.pendingCmds ∧
    ((setTS 0xa4 b now st).1.slots .setTS).pending = false ∧
    ∀ c2, c2 ≠ CmdSlot.setTS → (setTS 0xa4 b now st).1.slots c2 = st.slots c2 := by
  have hsend : ∀ st2 : civState, st2.stConnected = false →
      ∀ c2 now2, sendCmd st2 c2 now2 = (st2, []) := by
    intro st2 h2 c2 now2
    unfold sendCmd
    rw [h2]
    simp
  have hset : setTS 0xa4 b now st =
      (initCmd st .setTS "setTS" [0xfe, 0xfe, 0xa4, 0xe0, 0x10, b, 0xfd], []) := by
    simp only [setTS]
    exact hsend _ (by simpa [initCmd, setSlot] using h) _ _
  refine ⟨hsend st h c now, ?_, ?_, ?_, ?_⟩
  · rw [hset]
  · rw [hset]
    rfl
  · rw [hset]
    simp [initCmd, setSlot]
  · intro c2 h2
    rw [hset]
    simp [initCmd, setSlot, h2]

/-- Witness for the C10 amended theorem on the disconnected initial state. -/
theorem nil_stream_sendCmd_noop_witness :
    ({ initialCivState with stConnected := false } : civState).stConnected = false ∧
    sendCmd { initialCivState with stConnected := false } .getS 3 =
      ({ initialCivState with stConnected := false }, []) ∧
    (setTS 0xa4 5 0 { initialCivState with stConnected := false }).2 = [] :=
  ⟨rfl, (nil_stream_sendCmd_noop _ .getS 5 3 rfl).1,
    (nil_stream_sendCmd_noop _ .getS 5 0 rfl).2.1⟩

/-! ### C7 amended: the S-meter frame reports "S9" -/

/-- C7 amended: decoding `FE FE E0 A4 15 02 01 20 FD` from any engine state
at time `now` completes, updates `lastSReceivedAt` to `now`, and reports
the S-meter string "S9" (the source rounds `(0x0120 / 0x0241) * 18 ≈ 8.98`
to 9, not to the 5 stated in the claim). -/
theorem decodeS_frame_reports_S9 (st : civState) (now : Nat) :
    ((decode 0xa4 now st [0xfe, 0xfe, 0xe0, 0xa4, 0x15, 0x02, 0x01, 0x20, 0xfd]).map
      fun r => (r.1.lastSReceivedAt, r.2.2.2)) = some (now, [Report.reportS "S9"]) := by
  show ((decodeVdSWRS now st [0x02, 0x01, 0x20]).map
      fun r => (r.1.lastSReceivedAt, r.2.2.2)) = some (now, [Report.reportS "S9"])
  have hs : sMeterString (sMeterValue (256 * 1 + 32)) = "S9" := by decide
  simp only [decodeVdSWRS]
  norm_num [hs, lastS_absorb]

/-! ### C4: retransmission keeps the pending table intact -/

lemma countSlot_eq_zero_iff (c : CmdSlot) (l : List CmdSlot) :
    countSlot c l = 0 ↔ c ∉ l := by
  induction l with
  | nil => simp [countSlot]
  | cons x rest ih =>
      unfold countSlot
      by_cases hx : x = c
      · subst hx; simp
      · simp [hx, ih, Ne.symm hx]

lemma countSlot_eq_one_split (c : CmdSlot) (l : List CmdSlot)
    (h : countSlot c l = 1) :
    ∃ l1 l2, l = l1 ++ c :: l2 ∧ c ∉ l1 ∧ c ∉ l2 := by
  induction l with
  | nil => simp [countSlot] at h
  | cons x rest ih =>
      unfold countSlot at h
      by_cases hx : x = c
      · subst hx
        rw [if_pos rfl] at h
        have h0 : countSlot x rest = 0 := by omega
        exact ⟨[], rest, rfl, by simp, (countSlot_eq_zero_iff x rest).mp h0⟩
      · simp only [if_neg hx] at h
        obtain ⟨l1, l2, heq, h1, h2⟩ := ih (by omega)
        refine ⟨x :: l1, l2, by simp [heq], ?_, h2⟩
        intro hc
        rcases List.mem_cons.mp hc with hc | hc
        · exact hx hc.symm
        · exact h1 hc

lemma retryPendingAux_append (now : Nat) (st : civState) (a b : List CmdSlot) :
    retryPendingAux now st (a ++ b) =
      ((retryPendingAux now (retryPendingAux now st a).1 b).1,
       (retryPendingAux now st a).2 ++ (retryPendingAux now (retryPendingAux now st a).1 b).2) := by
  induction a generalizing st with
  | nil => simp [retryPendingAux]
  | cons c rest ih =>
      simp only [List.cons_append, retryPendingAux]
      split
      · simp [ih]
      · exact ih st

lemma retryPendingAux_pendingCmds (now : Nat) (st : civState) (l : List CmdSlot)
    (hsub : ∀ x ∈ l, x ∈ st.pendingCmds) :
    (retryPendingAux now st l).1.pendingCmds = st.pendingCmds ∧
    (retryPendingAux now st l).1.stConnected = st.stConnected := by
  induction l generalizing st with
  | nil => exact ⟨rfl, rfl⟩
  | cons c rest ih =>
      unfold retryPendingAux
      split
      · have hmem : c ∈ st.pendingCmds := hsub c (List.mem_cons_self c rest)
        have hp := sendCmd_pendingCmds_of_mem st c now hmem
        have hc := sendCmd_fst_stConnected st c now
        have hrec := ih (sendCmd st c now).1 (by
          intro x hx
          rw [hp]
          exact hsub x (List.mem_cons_of_mem c hx))
        exact ⟨hrec.1.trans hp, hrec.2.trans hc⟩
      · exact ih st (fun x hx => hsub x (List.mem_cons_of_mem c hx))

lemma retryPendingAux_slot_of_notmem (now : Nat) (st : civState) (l : List CmdSlot)
    (c2 : CmdSlot) (hn : c2 ∉ l) :
    (retryPendingAux now st l).1.slots c2 = st.slots c2 := by
  induction l generalizing st with
  | nil => rfl
  | cons c rest ih =>
      have hne : c2 ≠ c := fun he => hn (he ▸ List.mem_cons_self c rest)
      have hrest : c2 ∉ rest := fun hm => hn (List.mem_cons_of_mem c hm)
      unfold retryPendingAux
      split
      · exact (ih (sendCmd st c now).1 hrest).trans (sendCmd_slot_other st c c2 now hne)
      · exact ih st hrest

/-- C4: a pending command that is the unique entry for its slot and whose
reply is `commandRetryTimeout` (500 ms) overdue is retransmitted by the
engine loop's retry pass with its identical original bytes; the pending
list is left exactly as it was (so the entry is still present exactly
once), the slot stays pending, and its `sentAt` is refreshed to the resend
time. -/
theorem retryPending_no_duplicate (st : civState) (now : Nat) (c : CmdSlot)
    (hconn : st.stConnected = true)
    (hcount : countSlot c st.pendingCmds = 1)
    (hover : commandRetryTimeout ≤ now - (st.slots c).sentAt) :
    (retryPending st now).1.pendingCmds = st.pendingCmds ∧
    countSlot c (retryPending st now).1.pendingCmds = 1 ∧
    ((retryPending st now).1.slots c).cmd = (st.slots c).cmd ∧
    ((retryPending st now).1.slots c).sentAt = now ∧
    ((retryPending st now).1.slots c).pending = true ∧
    (st.slots c).cmd ∈ (retryPending st now).2 := by
  obtain ⟨l1, l2, hsplit, h1, h2⟩ := countSlot_eq_one_split c _ hcount
  have hmem : c ∈ st.pendingCmds := by rw [hsplit]; simp
  have hsub1 : ∀ x ∈ l1, x ∈ st.pendingCmds := by
    intro x hx; rw [hsplit]; exact List.mem_append_left _ hx
  -- state after the prefix l1
  have hA := retryPendingAux_pendingCmds now st l1 hsub1
  have hAslot := retryPendingAux_slot_of_notmem now st l1 c h1
  set stA := (retryPendingAux now st l1).1 with hstA
  -- one step on c
  have hstep : retryPendingAux now stA (c :: l2) =
      ((retryPendingAux now (sendCmd stA c now).1 l2).1,
       (sendCmd stA c now).2 ++ (retryPendingAux now (sendCmd stA c now).1 l2).2) := by
    simp only [retryPendingAux]
    rw [hAslot, if_pos hover]
  have hAconn : stA.stConnected = true := hA.2.trans hconn
  set stB := (sendCmd stA c now).1 with hstB
  have hBpend : stB.pendingCmds = st.pendingCmds := by
    rw [hstB, sendCmd_pendingCmds_of_mem stA c now (by rw [hA.1]; exact hmem)]
    exact hA.1
  have hBslot : stB.slots c = { stA.slots c with pending := true, sentAt := now } := by
    rw [hstB, sendCmd_slot_self stA c now hAconn]
  have hBframes : (sendCmd stA c now).2 = [(st.slots c).cmd] := by
    rw [sendCmd_snd stA c now hAconn, hAslot]
  have hC := retryPendingAux_pendingCmds now stB l2 (by
    intro x hx
    rw [hBpend, hsplit]
    exact List.mem_append_right _ (List.mem_cons_of_mem c hx))
  have hCslot := retryPendingAux_slot_of_notmem now stB l2 c h2
  have hfull : retryPending st now =
      ((retryPendingAux now stB l2).1,
       (retryPendingAux now st l1).2 ++
         ((sendCmd stA c now).2 ++ (retryPendingAux now stB l2).2)) := by
    unfold retryPending
    rw [hsplit, retryPendingAux_append, ← hstA, hstep]
  refine ⟨?_, ?_, ?_, ?_, ?_, ?_⟩
  · rw [hfull]
    exact hC.1.trans hBpend
  · rw [hfull]
    simpa [hC.1.trans hBpend] using hcount
  · rw [hfull]
    simp only [hCslot, hBslot, hAslot]
  · rw [hfull]
    simp only [hCslot, hBslot]
  · rw [hfull]
    simp only [hCslot, hBslot]
  · rw [hfull]
    simp [hBframes]

/-- Witness for C4: a single overdue `setTS` command in the table. -/
theorem retryPending_no_duplicate_witness :
    ((setTS 0xa4 5 0 initialCivState).1.stConnected = true ∧
     countSlot .setTS (setTS 0xa4 5 0 initialCivState).1.pendingCmds = 1 ∧
     commandRetryTimeout ≤ 500 - (((setTS 0xa4 5 0 initialCivState).1.slots .setTS).sentAt)) ∧
    ((retryPending (setTS 0xa4 5 0 initialCivState).1 500).1.pendingCmds =
      (setTS 0xa4 5 0 initialCivState).1.pendingCmds ∧
     ((retryPending (setTS 0xa4 5 0 initialCivState).1 500).1.slots .setTS).sentAt = 500) := by
  have h := retryPending_no_duplicate (setTS 0xa4 5 0 initialCivState).1 500 .setTS
    (by decide) (by decide) (by decide)
  exact ⟨⟨by decide, by decide, by decide⟩, h.1, h.2.2.2.1⟩

/-! ### C5: percent bounds through the decoders -/

lemma analogPercent_nonneg (hex : Nat) : 0 ≤ analogPercent hex := by
  unfold analogPercent
  exact_mod_cast Nat.zero_le _

lemma analogPercent_le_100 (hex : Nat) (h : hex ≤ 0x0255) : analogPercent hex ≤ 100 := by
  unfold analogPercent
  have hn : (200 * hex + 597) / 1194 ≤ 100 := by omega
  exact_mod_cast hn

lemma decodeMode_percents (st : civState) (d : List Nat) (r : decodeResult)
    (h : decodeMode st d = some r) (hst : percentsOK st) : percentsOK r.1 := by
  simp only [decodeMode] at h
  repeat' split at h
  all_goals
    first
      | exact Option.noConfusion h
      | (injection h with h; subst h;
         first
           | exact hst
           | exact (percentsOK_absorb _ _).mpr hst)

lemma decodeVFO_percents (ca now : Nat) (st : civState) (d : List Nat) (r : decodeResult)
    (h : decodeVFO ca now st d = some r) (hst : percentsOK st) : percentsOK r.1 := by
  simp only [decodeVFO] at h
  repeat' split at h
  all_goals
    first
      | exact Option.noConfusion h
      | (injection h with h; subst h;
         first
           | exact hst
           | exact (percentsOK_absorb _ _).mpr hst
           | exact (percentsOK_getBothVFOFreq _ _ _).mpr hst)

lemma decodeSplit_percents (st : civState) (d : List Nat) (r : decodeResult)
    (h : decodeSplit st d = some r) (hst : percentsOK st) : percentsOK r.1 := by
  simp only [decodeSplit] at h
  repeat' split at h
  all_goals
    first
      | exact Option.noConfusion h
      | (injection h with h; subst h;
         first
           | exact hst
           | exact (percentsOK_absorb _ _).mpr hst)

lemma decodeTS_percents (st : civState) (d : List Nat) (r : decodeResult)
    (h : decodeTS st d = some r) (hst : percentsOK st) : percentsOK r.1 := by
  simp only [decodeTS] at h
  repeat' split at h
  all_goals
    first
      | exact Option.noConfusion h
      | (injection h with h; subst h;
         first
           | exact hst
           | exact (percentsOK_absorb _ _).mpr hst)

lemma decodeDataModeAndOVF_percents (now : Nat) (st : civState) (d : List Nat)
    (r : decodeResult) (h : decodeDataModeAndOVF now st d = some r)
    (hst : percentsOK st) : percentsOK r.1 := by
  simp only [decodeDataModeAndOVF] at h
  repeat' split at h
  all_goals
    first
      | exact Option.noConfusion h
      | (injection h with h; subst h;
         first
           | exact hst
           | exact (percentsOK_absorb _ _).mpr hst)

lemma decodeTransmitStatus_percents (ca now : Nat) (st : civState) (d : List Nat)
    (r : decodeResult) (h : decodeTransmitStatus ca now st d = some r)
    (hst : percentsOK st) : percentsOK r.1 := by
  simp only [decodeTransmitStatus] at h
  repeat' split at h
  all_goals
    first
      | exact Option.noConfusion h
      | (injection h with h; subst h;
         first
           | exact hst
           | exact (percentsOK_absorb _ _).mpr hst
           | exact (percentsOK_absorb _ _).mpr ((percentsOK_getVd _ _ _).mpr hst))

lemma decodeVdSWRS_percents (now : Nat) (st : civState) (d : List Nat)
    (r : decodeResult) (h : decodeVdSWRS now st d = some r)
    (hst : percentsOK st) : percentsOK r.1 := by
  simp only [decodeVdSWRS] at h
  repeat' split at h
  all_goals
    first
      | exact Option.noConfusion h
      | (injection h with h; subst h;
         first
           | exact hst
           | exact (percentsOK_absorb _ _).mpr hst)

lemma decodePreampAGCNREnabled_percents (st : civState) (d : List Nat)
    (r : decodeResult) (h : decodePreampAGCNREnabled st d = some r)
    (hst : percentsOK st) : percentsOK r.1 := by
  simp only [decodePreampAGCNREnabled] at h
  repeat' split at h
  all_goals
    first
      | exact Option.noConfusion h
      | (injection h with h; subst h;
         first
           | exact hst
           | exact (percentsOK_absorb _ _).mpr hst)

lemma decodeVFOFreq_percents (st : civState) (d : List Nat)
    (r : decodeResult) (h : decodeVFOFreq st d = some r)
    (hst : percentsOK st) : percentsOK r.1 := by
  simp only [decodeVFOFreq] at h
  repeat' split at h
  all_goals
    first
      | exact Option.noConfusion h
      | (injection h with h; subst h;
         first
           | exact hst
           | exact (percentsOK_absorb _ _).mpr hst)

lemma decodeVFOMode_percents (st : civState) (d : List Nat)
    (r : decodeResult) (h : decodeVFOMode st d = some r)
    (hst : percentsOK st) : percentsOK r.1 := by
  simp only [decodeVFOMode] at h
  repeat' split at h
  all_goals
    first
      | exact Option.noConfusion h
      | (injection h with h; subst h;
         first
           | exact hst
           | exact (percentsOK_absorb _ _).mpr hst)

lemma decodePowerRFGainSQLNRPwr_percents (st : civState) (d : List Nat)
    (r : decodeResult) (h : decodePowerRFGainSQLNRPwr st d = some r)
    (hst : percentsOK st)
    (hhex : 256 * d.getD 1 0 + d.getD 2 0 ≤ 0x0255) : percentsOK r.1 := by
  obtain ⟨a1, a2, a3, a4, a5, a6, a7, a8⟩ := hst
  simp only [decodePowerRFGainSQLNRPwr] at h
  repeat' split at h
  all_goals
    first
      | exact Option.noConfusion h
      | (injection h with h; subst h;
         first
           | exact ⟨a1, a2, a3, a4, a5, a6, a7, a8⟩
           | exact (percentsOK_absorb _ _).mpr
               ⟨a1, a2, analogPercent_nonneg _, analogPercent_le_100 _ hhex, a5, a6, a7, a8⟩
           | exact (percentsOK_absorb _ _).mpr
               ⟨a1, a2, a3, a4, analogPercent_nonneg _, analogPercent_le_100 _ hhex, a7, a8⟩
           | exact (percentsOK_absorb _ _).mpr
               ⟨analogPercent_nonneg _, analogPercent_le_100 _ hhex, a3, a4, a5, a6, a7, a8⟩
           | exact (percentsOK_absorb _ _).mpr
               ⟨a1, a2, a3, a4, a5, a6, analogPercent_nonneg _, analogPercent_le_100 _ hhex⟩)

lemma percentsOKRes_of (o : Option decodeResult)
    (H : ∀ r, o = some r → percentsOK r.1) : percentsOKRes o := by
  cases o with
  | none => trivial
  | some r => exact H r rfl

/-- C5 amended: for every frame whose decode completes, the four percent
fields stay in [0, 100] provided every 0x14 analog-readback frame carries a
16-bit value of at most 0x0255 (the radio's maximum); an arbitrary 16-bit
value can push a percent field far beyond 100, so the bound claimed for
arbitrary values does not hold. -/
theorem decode_preserves_percents (ca now : Nat) (st : civState) (d : List Nat)
    (hst : percentsOK st) (hd : analogHexOK d) :
    percentsOKRes (decode ca now st d) := by
  simp only [decode]
  split
  · exact hst
  · split
    all_goals
      first
        | exact hst
        | exact percentsOKRes_of _ (fun r hr => decodeMode_percents _ _ _ hr hst)
        | exact percentsOKRes_of _ (fun r hr => decodeVFO_percents _ _ _ _ _ hr hst)
        | exact percentsOKRes_of _ (fun r hr => decodeSplit_percents _ _ _ hr hst)
        | exact percentsOKRes_of _ (fun r hr => decodeTS_percents _ _ _ hr hst)
        | exact percentsOKRes_of _ (fun r hr => decodeDataModeAndOVF_percents _ _ _ _ hr hst)
        | exact percentsOKRes_of _ (fun r hr => decodeTransmitStatus_percents _ _ _ _ _ hr hst)
        | exact percentsOKRes_of _ (fun r hr => decodeVdSWRS_percents _ _ _ _ hr hst)
        | exact percentsOKRes_of _ (fun r hr => decodePreampAGCNREnabled_percents _ _ _ hr hst)
        | exact percentsOKRes_of _ (fun r hr => decodeVFOFreq_percents _ _ _ hr hst)
        | exact percentsOKRes_of _ (fun r hr => decodeVFOMode_percents _ _ _ hr hst)
        | (rename_i heq;
           exact percentsOKRes_of _
             (fun r hr => decodePowerRFGainSQLNRPwr_percents _ _ _ hr hst (hd heq)))

/-- Witness for the C5 amended theorem: a 0x14 power readback carrying the
maximal radio value 0x0255 decodes to 100 percent. -/
theorem decode_preserves_percents_witness :
    percentsOK initialCivState ∧
    analogHexOK [0xfe, 0xfe, 0xe0, 0xa4, 0x14, 0x0a, 0x02, 0x55, 0xfd] ∧
    percentsOKRes (decode 0xa4 0 initialCivState
      [0xfe, 0xfe, 0xe0, 0xa4, 0x14, 0x0a, 0x02, 0x55, 0xfd]) :=
  ⟨by decide, by decide,
   decode_preserves_percents 0xa4 0 initialCivState _ (by decide) (by decide)⟩

/-! ### C6: index bounds through the decoders -/

lemma findIdxP_lt_length {α : Type} (p : α → Prop) [DecidablePred p]
    (l : List α) (i : Nat) (h : findIdxP p l = some i) : i < l.length := by
  induction l generalizing i with
  | nil => cases h
  | cons x rest ih =>
      unfold findIdxP at h
      split at h
      · injection h with h
        subst h
        simp
      · rcases hr : findIdxP p rest with _ | j <;> rw [hr] at h
        · cases h
        · injection h with h
          subst h
          have := ih j hr
          simp
          omega

lemma decodeFilterValueToFilterIdx_bounds (v : Nat) :
    0 ≤ decodeFilterValueToFilterIdx v ∧ decodeFilterValueToFilterIdx v < 3 := by
  unfold decodeFilterValueToFilterIdx
  rcases hf : findIdxP (fun x => x.code = v) civFilters with _ | i <;>
    rw [hf] <;> simp only []
  · norm_num
  · have hb : i < 3 := by simpa [civFilters] using findIdxP_lt_length _ _ _ hf
    constructor
    · positivity
    · exact_mod_cast hb

lemma listGetInt_neg_one {α : Type} (l : List α) : listGetInt l (-1) = none := rfl

lemma decodeVFO_idx (ca now : Nat) (st : civState) (d : List Nat) (r : decodeResult)
    (h : decodeVFO ca now st d = some r) (hst : idxOK st) : idxOK r.1 := by
  simp only [decodeVFO] at h
  repeat' split at h
  all_goals
    first
      | exact Option.noConfusion h
      | (injection h with h; subst h;
         first
           | exact hst
           | exact (idxOK_absorb _ _).mpr hst
           | exact (idxOK_getBothVFOFreq _ _ _).mpr hst)

lemma decodeSplit_idx (st : civState) (d : List Nat) (r : decodeResult)
    (h : decodeSplit st d = some r) (hst : idxOK st) : idxOK r.1 := by
  simp only [decodeSplit] at h
  repeat' split at h
  all_goals
    first
      | exact Option.noConfusion h
      | (injection h with h; subst h;
         first
           | exact hst
           | exact (idxOK_absorb _ _).mpr hst)

lemma decodeTS_idx (st : civState) (d : List Nat) (r : decodeResult)
    (h : decodeTS st d = some r) (hst : idxOK st) : idxOK r.1 := by
  simp only [decodeTS] at h
  repeat' split at h
  all_goals
    first
      | exact Option.noConfusion h
      | (injection h with h; subst h;
         first
           | exact hst
           | exact (idxOK_absorb _ _).mpr hst)

lemma decodeTransmitStatus_idx (ca now : Nat) (st : civState) (d : List Nat)
    (r : decodeResult) (h : decodeTransmitStatus ca now st d = some r)
    (hst : idxOK st) : idxOK r.1 := by
  simp only [decodeTransmitStatus] at h
  repeat' split at h
  all_goals
    first
      | exact Option.noConfusion h
      | (injection h with h; subst h;
         first
           | exact hst
           | exact (idxOK_absorb _ _).mpr hst
           | exact (idxOK_absorb _ _).mpr ((idxOK_getVd _ _ _).mpr hst))

lemma decodeVdSWRS_idx (now : Nat) (st : civState) (d : List Nat)
    (r : decodeResult) (h : decodeVdSWRS now st d = some r)
    (hst : idxOK st) : idxOK r.1 := by
  simp only [decodeVdSWRS] at h
  repeat' split at h
  all_goals
    first
      | exact Option.noConfusion h
      | (injection h with h; subst h;
         first
           | exact hst
           | exact (idxOK_absorb _ _).mpr hst)

lemma decodePreampAGCNREnabled_idx (st : civState) (d : List Nat)
    (r : decodeResult) (h : decodePreampAGCNREnabled st d = some r)
    (hst : idxOK st) : idxOK r.1 := by
  simp only [decodePreampAGCNREnabled] at h
  repeat' split at h
  all_goals
    first
      | exact Option.noConfusion h
      | (injection h with h; subst h;
         first
           | exact hst
           | exact (idxOK_absorb _ _).mpr hst)

lemma decodePowerRFGainSQLNRPwr_idx (st : civState) (d : List Nat)
    (r : decodeResult) (h : decodePowerRFGainSQLNRPwr st d = some r)
    (hst : idxOK st) : idxOK r.1 := by
  simp only [decodePowerRFGainSQLNRPwr] at h
  repeat' split at h
  all_goals
    first
      | exact Option.noConfusion h
      | (injection h with h; subst h;
         first
           | exact hst
           | exact (idxOK_absorb _ _).mpr hst)

lemma decodeMode_idx (st : civState) (d : List Nat) (r : decodeResult)
    (h : decodeMode st d = some r) (hst : idxOK st) : idxOK r.1 := by
  obtain ⟨b1, b2, b3, b4, b5, b6, b7, b8, b9, b10, b11⟩ := hst
  simp only [decodeMode] at h
  split at h
  · injection h with h; subst h
    exact ⟨b1, b2, b3, b4, b5, b6, b7, b8, b9, b10, b11⟩
  · rcases hfind : findIdxP (fun m => m.code = d.getD 0 0) civOperatingModes with _ | i <;>
      rw [hfind] at h <;> (try simp only [] at h) <;> repeat' split at h
    all_goals
      first
        | exact Option.noConfusion h
        | (injection h with h; subst h;
           refine (idxOK_absorb _ _).mpr
             ⟨?_, ?_, ?_, ?_, ?_, ?_, ?_, ?_, ?_, ?_, ?_⟩ <;>
             dsimp only <;>
             first
               | assumption
               | omega
               | (have hb : i < 10 := by
                    simpa [civOperatingModes] using findIdxP_lt_length _ _ _ hfind
                  omega)
               | (have hb := decodeFilterValueToFilterIdx_bounds (d.getD 1 0)
                  omega))

lemma decodeDataModeAndOVF_idx (now : Nat) (st : civState) (d : List Nat)
    (r : decodeResult) (h : decodeDataModeAndOVF now st d = some r)
    (hst : idxOK st) : idxOK r.1 := by
  obtain ⟨b1, b2, b3, b4, b5, b6, b7, b8, b9, b10, b11⟩ := hst
  simp only [decodeDataModeAndOVF] at h
  repeat' split at h
  all_goals
    first
      | exact Option.noConfusion h
      | (injection h with h; subst h;
         first
           | exact ⟨b1, b2, b3, b4, b5, b6, b7, b8, b9, b10, b11⟩
           | exact (idxOK_absorb _ _).mpr ⟨b1, b2, b3, b4, b5, b6, b7, b8, b9, b10, b11⟩
           | (refine (idxOK_absorb _ _).mpr
               ⟨?_, ?_, ?_, ?_, ?_, ?_, ?_, ?_, ?_, ?_, ?_⟩ <;>
               dsimp only <;>
               first
                 | assumption
                 | omega
                 | (have hb := decodeFilterValueToFilterIdx_bounds (d.getD 2 0)
                    omega)))

lemma decodeVFOFreq_idx (st : civState) (d : List Nat)
    (r : decodeResult) (h : decodeVFOFreq st d = some r)
    (hst : idxOK st) : idxOK r.1 := by
  obtain ⟨b1, b2, b3, b4, b5, b6, b7, b8, b9, b10, b11⟩ := hst
  simp only [decodeVFOFreq] at h
  split at h
  · injection h with h; subst h
    exact ⟨b1, b2, b3, b4, b5, b6, b7, b8, b9, b10, b11⟩
  · rcases hfind : findIdxP
        (fun rr => rr.freqFrom ≤ decodeFreqData (d.drop 1) ∧
                   decodeFreqData (d.drop 1) ≤ rr.freqTo) st.bands with _ | i <;>
      rw [hfind] at h <;> (try simp only [] at h) <;> repeat' split at h
    all_goals
      first
        | exact Option.noConfusion h
        | (injection h with h; subst h;
           first
             | exact (idxOK_absorb _ _).mpr ⟨b1, b2, b3, b4, b5, b6, b7, b8, b9, b10, b11⟩
             | (refine (idxOK_absorb _ _).mpr
                 ⟨?_, ?_, ?_, ?_, ?_, ?_, ?_, ?_, ?_, ?_, ?_⟩ <;>
                 dsimp only <;>
                 first
                   | assumption
                   | omega
                   | (have hb := findIdxP_lt_length _ _ _ hfind
                      omega)
                   | (rw [List.length_set]; exact b11)))

lemma decodeVFOMode_idx (st : civState) (d : List Nat)
    (r : decodeResult) (h : decodeVFOMode st d = some r)
    (hst : idxOK st) : idxOK r.1 := by
  obtain ⟨b1, b2, b3, b4, b5, b6, b7, b8, b9, b10, b11⟩ := hst
  simp only [decodeVFOMode] at h
  split at h
  · injection h with h; subst h
    exact ⟨b1, b2, b3, b4, b5, b6, b7, b8, b9, b10, b11⟩
  · rcases hfind : findIdxP (fun m => m.code = d.getD 1 0) civOperatingModes with _ | i <;>
      rw [hfind] at h <;> (try simp only [] at h)
    all_goals by_cases hlen3 : 3 < d.length
    all_goals
      first
        | simp only [if_pos hlen3] at h
        | simp only [if_neg hlen3] at h
    all_goals try simp only [if_pos (decodeFilterValueToFilterIdx_bounds (d.getD 3 0)).1] at h
    all_goals try simp only [if_neg (show ¬ (0 : Int) ≤ -1 by norm_num)] at h
    all_goals try simp only [listGetInt_neg_one] at h
    all_goals repeat' split at h
    all_goals
      first
        | exact Option.noConfusion h
        | contradiction
        | (injection h with h; subst h;
           refine (idxOK_absorb _ _).mpr
             ⟨?_, ?_, ?_, ?_, ?_, ?_, ?_, ?_, ?_, ?_, ?_⟩ <;>
             dsimp only <;>
             first
               | assumption
               | omega
               | (have hb : i < 10 := by
                    simpa [civOperatingModes] using findIdxP_lt_length _ _ _ hfind
                  omega)
               | (have hb := decodeFilterValueToFilterIdx_bounds (d.getD 3 0)
                  omega))

lemma idxOKRes_of (o : Option decodeResult)
    (H : ∀ r, o = some r → idxOK r.1) : idxOKRes o := by
  cases o with
  | none => trivial
  | some r => exact H r rfl

/-- C6 amended: for every frame whose decode completes, the index fields
stay in range (`operatingModeIdx`, `subOperatingModeIdx` in [0, 10),
`filterIdx`, `subFilterIdx` in [0, 3), `bandIdx` in [0, 15)); but a 0x26
VFO-mode frame whose mode code is not in the mode table, or whose sub-VFO
filter byte is absent, does not complete: it writes −1 into the index and
then panics on the out-of-range status-report table lookup. -/
theorem decode_preserves_idx (ca now : Nat) (st : civState) (d : List Nat)
    (hst : idxOK st) : idxOKRes (decode ca now st d) := by
  simp only [decode]
  split
  · exact hst
  · split
    all_goals
      first
        | exact hst
        | exact idxOKRes_of _ (fun r hr => decodeMode_idx _ _ _ hr hst)
        | exact idxOKRes_of _ (fun r hr => decodeVFO_idx _ _ _ _ _ hr hst)
        | exact idxOKRes_of _ (fun r hr => decodeSplit_idx _ _ _ hr hst)
        | exact idxOKRes_of _ (fun r hr => decodeTS_idx _ _ _ hr hst)
        | exact idxOKRes_of _ (fun r hr => decodeDataModeAndOVF_idx _ _ _ _ hr hst)
        | exact idxOKRes_of _ (fun r hr => decodeTransmitStatus_idx _ _ _ _ _ hr hst)
        | exact idxOKRes_of _ (fun r hr => decodeVdSWRS_idx _ _ _ _ hr hst)
        | exact idxOKRes_of _ (fun r hr => decodePreampAGCNREnabled_idx _ _ _ hr hst)
        | exact idxOKRes_of _ (fun r hr => decodeVFOFreq_idx _ _ _ hr hst)
        | exact idxOKRes_of _ (fun r hr => decodeVFOMode_idx _ _ _ hr hst)
        | exact idxOKRes_of _ (fun r hr => decodePowerRFGainSQLNRPwr_idx _ _ _ hr hst)

/-- Witness for the C6 amended theorem: a 0x26 frame carrying a known mode
code and a filter byte decodes with all index fields in range. -/
theorem decode_preserves_idx_witness :
    idxOK initialCivState ∧
    idxOKRes (decode 0xa4 0 initialCivState
      [0xfe, 0xfe, 0xe0, 0xa4, 0x26, 0x00, 0x17, 0x01, 0x02, 0xfd]) :=
  ⟨by decide, decode_preserves_idx 0xa4 0 initialCivState _ (by decide)⟩

end KH
